import Mathlib

/-!
Verification of the command-driven document-mutation engine of
`xlsx2docx-byColumns.py` (shallow embedding).

The Python source is embedded as executable Lean definitions:
* paragraph text is `String`; Python's `x in s` substring test becomes `pyIn`;
* spreadsheet cell values are `Option String` (`none` = empty cell / Python `None`);
* Python exceptions (`TypeError` from `None in text`, `KeyError` from an unknown
  style name, `FileNotFoundError` from `os.makedirs("")`) become `Except PyError`;
* the document is the hierarchical structure the script traverses: body
  paragraphs, body tables (rows / cells / paragraphs), and per-section
  header/footer paragraphs and tables.  A `Doc` also carries the set of style
  names its template defines, the template's default paragraph style, and the
  author metadata field.
-/

namespace Xlsx2Docx

/-- Python-level failures the script can hit while editing one document:
`TypeError` (e.g. `None in text`), a style lookup failure (`KeyError`, the
spec's StyleNotFound), and `FileNotFoundError` (e.g. `os.makedirs("")`). -/
inductive PyError where
  | typeError
  | styleNotFound
  | fileNotFound
deriving DecidableEq

/-- Python's case-sensitive substring test `pat in hay` on strings. -/
def pyIn (pat hay : String) : Bool := decide (pat.data <:+: hay.data)

/-- Python truthiness of an optional string cell value: `None` and `""` are
falsy, everything else truthy. -/
def truthyS : Option String → Bool
  | none => false
  | some s => decide (s ≠ "")

/-- Assigning `para.text = v` where `v` is an optional cell value: python-docx
clears the paragraph and adds a run only for a truthy text, so `None` (and
`""`) yield an empty paragraph. -/
def pyText : Option String → String
  | none => ""
  | some s => s

/-- A paragraph: its text and the name of its paragraph style. -/
structure Para where
  text : String
  style : String
deriving DecidableEq

/-- A table cell owning an ordered sequence of paragraphs. -/
structure Cell where
  paragraphs : List Para
deriving DecidableEq

/-- A table row: an ordered sequence of cells. -/
structure Row where
  cells : List Cell
deriving DecidableEq

/-- A table: an ordered sequence of rows. -/
structure Table where
  rows : List Row
deriving DecidableEq

/-- A section header or footer: its paragraphs and its tables. -/
structure HeaderFooter where
  paragraphs : List Para
  tables : List Table
deriving DecidableEq

/-- A document section owning a header and a footer. -/
structure DocSection where
  header : HeaderFooter
  footer : HeaderFooter
deriving DecidableEq

/-- The document: body paragraphs and tables, sections, the style names the
template defines, the template's default paragraph style, and author
metadata. -/
structure Doc where
  paragraphs : List Para
  tables : List Table
  sections : List DocSection
  styles : List String
  defaultStyle : String
  author : String
deriving DecidableEq

/-- Embedding of `replaceInParagraph(para, replace, content, style, ...)`
(source lines 63-92).  `replace in para.text` raises `TypeError` when the
replace cell is absent (`None`); on a match the paragraph text is set to the
content (`pyText`), and the style is reassigned exactly when
`style and style != "None"`, failing with StyleNotFound when the named style
is not defined by the template.  The `contextString` parameter of the source
only feeds a diagnostic print and is dropped here. -/
def replaceInParagraph (definedStyles : List String) (replace content style : Option String)
    (p : Para) : Except PyError Para :=
  match replace with
  | none => .error .typeError
  | some r =>
    if pyIn r p.text = true then
      if truthyS style = true ∧ style ≠ some "None" then
        match style with
        | some sname =>
          if sname ∈ definedStyles then .ok ⟨pyText content, sname⟩
          else .error .styleNotFound
        | none => .ok ⟨pyText content, p.style⟩
      else .ok ⟨pyText content, p.style⟩
    else .ok p

/-- Monadic map over a list in `Except`: processes elements left to right and
propagates the first error, mirroring a Python `for` loop that may raise. -/
def mapE {α β : Type} (f : α → Except PyError β) : List α → Except PyError (List β)
  | [] => .ok []
  | a :: as =>
    match f a with
    | .error e => .error e
    | .ok b =>
      match mapE f as with
      | .error e => .error e
      | .ok bs => .ok (b :: bs)

/-- The cell loop of `replaceParagraphInDoc`: edit every paragraph of a cell. -/
def replaceInCell (f : Para → Except PyError Para) (c : Cell) : Except PyError Cell :=
  match mapE f c.paragraphs with
  | .error e => .error e
  | .ok ps => .ok ⟨ps⟩

/-- The row loop: edit every cell of a row in order. -/
def replaceInRow (f : Para → Except PyError Para) (r : Row) : Except PyError Row :=
  match mapE (replaceInCell f) r.cells with
  | .error e => .error e
  | .ok cs => .ok ⟨cs⟩

/-- The table loop: edit every row of a table in order. -/
def replaceInTable (f : Para → Except PyError Para) (t : Table) : Except PyError Table :=
  match mapE (replaceInRow f) t.rows with
  | .error e => .error e
  | .ok rs => .ok ⟨rs⟩

/-- Header/footer processing of `replaceParagraphInDoc`: its paragraphs first,
then its tables (row, then cell, then paragraph order). -/
def replaceInHF (f : Para → Except PyError Para) (hf : HeaderFooter) :
    Except PyError HeaderFooter :=
  match mapE f hf.paragraphs with
  | .error e => .error e
  | .ok ps =>
    match mapE (replaceInTable f) hf.tables with
    | .error e => .error e
    | .ok ts => .ok ⟨ps, ts⟩

/-- Section processing: header paragraphs, header tables, footer paragraphs,
footer tables, in the source's order. -/
def replaceInSection (f : Para → Except PyError Para) (s : DocSection) :
    Except PyError DocSection :=
  match replaceInHF f s.header with
  | .error e => .error e
  | .ok h =>
    match replaceInHF f s.footer with
    | .error e => .error e
    | .ok ft => .ok ⟨h, ft⟩

/-- Embedding of `replaceParagraphInDoc(doc, replace, content, style)`
(source lines 95-161): body paragraphs, then body tables, then each section's
header paragraphs, header tables, footer paragraphs and footer tables. -/
def replaceParagraphInDoc (d : Doc) (replace content style : Option String) :
    Except PyError Doc :=
  match mapE (replaceInParagraph d.styles replace content style) d.paragraphs with
  | .error e => .error e
  | .ok ps =>
    match mapE (replaceInTable (replaceInParagraph d.styles replace content style)) d.tables with
    | .error e => .error e
    | .ok ts =>
      match mapE (replaceInSection (replaceInParagraph d.styles replace content style)) d.sections with
      | .error e => .error e
      | .ok ss => .ok { d with paragraphs := ps, tables := ts, sections := ss }

/-- Paragraphs of one table row, cell by cell (spec 4.1: row, then cell, then
that cell's paragraphs, in order). -/
def rowParas (r : Row) : List Para := r.cells.flatMap Cell.paragraphs

/-- Paragraphs of one table in row, cell, paragraph order. -/
def tableParas (t : Table) : List Para := t.rows.flatMap rowParas

/-- Paragraphs of a header/footer: its own paragraphs, then its tables'. -/
def hfParas (hf : HeaderFooter) : List Para := hf.paragraphs ++ hf.tables.flatMap tableParas

/-- Paragraphs of one section: header paragraphs, header-table paragraphs,
footer paragraphs, footer-table paragraphs. -/
def secParas (s : DocSection) : List Para := hfParas s.header ++ hfParas s.footer

/-- The spec's traversal order (spec 4.1, written from its words): (1) body
paragraphs in document order; (2) body tables, each row then cell then its
paragraphs; (3) per section: header paragraphs, header tables, footer
paragraphs, footer tables. -/
def travDoc (d : Doc) : List Para :=
  d.paragraphs ++ d.tables.flatMap tableParas ++ d.sections.flatMap secParas

example : pyIn "ab" "xaby" = true := by decide
example : pyIn "ab" "xAby" = false := by decide
example : pyIn "" "anything" = true := by decide

/-- `mapE` over a concatenation of successfully processed lists succeeds with
the concatenation of the results. -/
theorem mapE_append_of {α β : Type} {f : α → Except PyError β} :
    ∀ {xs ys : List α} {as bs : List β}, mapE f xs = .ok as → mapE f ys = .ok bs →
      mapE f (xs ++ ys) = .ok (as ++ bs) := by
  intro xs
  induction xs with
  | nil =>
    intro ys as bs h1 h2
    simp [mapE] at h1
    subst h1
    simpa using h2
  | cons x xs ih =>
    intro ys as bs h1 h2
    cases hfx : f x with
    | error e => simp [mapE, hfx] at h1
    | ok b =>
      cases hm : mapE f xs with
      | error e => simp [mapE, hfx, hm] at h1
      | ok bs1 =>
        simp [mapE, hfx, hm] at h1
        subst h1
        simp [mapE, hfx, ih hm h2]

/-- A successful `mapE` preserves the list length. -/
theorem mapE_ok_length {α β : Type} {f : α → Except PyError β} :
    ∀ {xs : List α} {ys : List β}, mapE f xs = .ok ys → ys.length = xs.length := by
  intro xs
  induction xs with
  | nil =>
    intro ys h
    simp [mapE] at h
    subst h
    rfl
  | cons x xs ih =>
    intro ys h
    cases hfx : f x with
    | error e => simp [mapE, hfx] at h
    | ok b =>
      cases hm : mapE f xs with
      | error e => simp [mapE, hfx, hm] at h
      | ok bs1 =>
        simp [mapE, hfx, hm] at h
        subst h
        simp [ih hm]

/-- A successful `mapE` is pointwise: the i-th output is the successful image
of the i-th input. -/
theorem mapE_ok_get {α β : Type} {f : α → Except PyError β} :
    ∀ {xs : List α} {ys : List β}, mapE f xs = .ok ys →
      ∀ i (hx : i < xs.length) (hy : i < ys.length),
        f (xs.get ⟨i, hx⟩) = .ok (ys.get ⟨i, hy⟩) := by
  intro xs
  induction xs with
  | nil =>
    intro ys h i hx hy
    exact absurd hx (by simp)
  | cons x xs ih =>
    intro ys h i hx hy
    cases hfx : f x with
    | error e => simp [mapE, hfx] at h
    | ok b =>
      cases hm : mapE f xs with
      | error e => simp [mapE, hfx, hm] at h
      | ok bs1 =>
        simp [mapE, hfx, hm] at h
        subst h
        cases i with
        | zero => simpa using hfx
        | succ i => simpa using ih hm i (by simpa using hx) (by simpa using hy)

/-- Every element of a successful `mapE` output is the successful image of
some input element. -/
theorem mapE_ok_mem {α β : Type} {f : α → Except PyError β} :
    ∀ {xs : List α} {ys : List β}, mapE f xs = .ok ys →
      ∀ y ∈ ys, ∃ x ∈ xs, f x = .ok y := by
  intro xs
  induction xs with
  | nil =>
    intro ys h y hy
    simp [mapE] at h
    subst h
    simp at hy
  | cons x xs ih =>
    intro ys h y hy
    cases hfx : f x with
    | error e => simp [mapE, hfx] at h
    | ok b =>
      cases hm : mapE f xs with
      | error e => simp [mapE, hfx, hm] at h
      | ok bs1 =>
        simp [mapE, hfx, hm] at h
        subst h
        rcases List.mem_cons.mp hy with hy | hy
        · exact ⟨x, List.mem_cons_self _ _, by rw [hfx, hy]⟩
        · obtain ⟨x', hx', hfx'⟩ := ih hm y hy
          exact ⟨x', List.mem_cons_of_mem _ hx', hfx'⟩

/-- If `mapE` succeeds, every input element was processed successfully:
no per-element failure is ever swallowed. -/
theorem mapE_ok_src {α β : Type} {f : α → Except PyError β} :
    ∀ {xs : List α} {ys : List β}, mapE f xs = .ok ys →
      ∀ x ∈ xs, ∃ y, f x = .ok y := by
  intro xs
  induction xs with
  | nil =>
    intro ys h x hx
    simp at hx
  | cons x xs ih =>
    intro ys h x' hx'
    cases hfx : f x with
    | error e => simp [mapE, hfx] at h
    | ok b =>
      cases hm : mapE f xs with
      | error e => simp [mapE, hfx, hm] at h
      | ok bs1 =>
        rcases List.mem_cons.mp hx' with hx' | hx'
        · exact ⟨b, by rw [hx']; exact hfx⟩
        · exact ih hm x' hx'

/-- Lifting a per-element paragraph-list refinement through `flatMap`:
if processing each `b` rewrites exactly its projected paragraph list, then
processing a list of `b`s rewrites the flattened paragraph list. -/
theorem mapE_flatMap_of {β : Type} {f : Para → Except PyError Para}
    {g : β → Except PyError β} {π : β → List Para}
    (hg : ∀ b b', g b = .ok b' → mapE f (π b) = .ok (π b')) :
    ∀ {bs bs' : List β}, mapE g bs = .ok bs' →
      mapE f (bs.flatMap π) = .ok (bs'.flatMap π) := by
  intro bs
  induction bs with
  | nil =>
    intro bs' h
    simp [mapE] at h
    subst h
    simp [mapE]
  | cons b bs ih =>
    intro bs' h
    cases hgb : g b with
    | error e => simp [mapE, hgb] at h
    | ok b' =>
      cases hm : mapE g bs with
      | error e => simp [mapE, hgb, hm] at h
      | ok rest =>
        simp [mapE, hgb, hm] at h
        subst h
        simpa using mapE_append_of (hg b b' hgb) (ih hm)

/-- A successful cell edit rewrites exactly the cell's paragraph list. -/
theorem replaceInCell_ok {f : Para → Except PyError Para} {c c' : Cell}
    (h : replaceInCell f c = .ok c') : mapE f c.paragraphs = .ok c'.paragraphs := by
  unfold replaceInCell at h
  cases hm : mapE f c.paragraphs with
  | error e => rw [hm] at h; simp at h
  | ok ps => rw [hm] at h; simp at h; subst h; rfl

/-- A successful row edit rewrites exactly the row's paragraphs in cell order. -/
theorem replaceInRow_ok {f : Para → Except PyError Para} {r r' : Row}
    (h : replaceInRow f r = .ok r') : mapE f (rowParas r) = .ok (rowParas r') := by
  unfold replaceInRow at h
  cases hm : mapE (replaceInCell f) r.cells with
  | error e => rw [hm] at h; simp at h
  | ok cs =>
    rw [hm] at h; simp at h; subst h
    exact mapE_flatMap_of (fun c c' hc => replaceInCell_ok hc) hm

/-- A successful table edit rewrites exactly the table's paragraphs in row,
cell, paragraph order. -/
theorem replaceInTable_ok {f : Para → Except PyError Para} {t t' : Table}
    (h : replaceInTable f t = .ok t') : mapE f (tableParas t) = .ok (tableParas t') := by
  unfold replaceInTable at h
  cases hm : mapE (replaceInRow f) t.rows with
  | error e => rw [hm] at h; simp at h
  | ok rs =>
    rw [hm] at h; simp at h; subst h
    exact mapE_flatMap_of (fun r r' hr => replaceInRow_ok hr) hm

/-- A successful header/footer edit rewrites its paragraphs, then its tables'
paragraphs. -/
theorem replaceInHF_ok {f : Para → Except PyError Para} {hf hf' : HeaderFooter}
    (h : replaceInHF f hf = .ok hf') : mapE f (hfParas hf) = .ok (hfParas hf') := by
  unfold replaceInHF at h
  cases h1 : mapE f hf.paragraphs with
  | error e => rw [h1] at h; simp at h
  | ok ps =>
    rw [h1] at h
    cases h2 : mapE (replaceInTable f) hf.tables with
    | error e => rw [h2] at h; simp at h
    | ok ts =>
      rw [h2] at h; simp at h; subst h
      exact mapE_append_of h1 (mapE_flatMap_of (fun t t' ht => replaceInTable_ok ht) h2)

/-- A successful section edit rewrites header paragraphs, header tables,
footer paragraphs, footer tables, in that order. -/
theorem replaceInSection_ok {f : Para → Except PyError Para} {s s' : DocSection}
    (h : replaceInSection f s = .ok s') : mapE f (secParas s) = .ok (secParas s') := by
  unfold replaceInSection at h
  cases h1 : replaceInHF f s.header with
  | error e => rw [h1] at h; simp at h
  | ok hd =>
    rw [h1] at h
    cases h2 : replaceInHF f s.footer with
    | error e => rw [h2] at h; simp at h
    | ok ft =>
      rw [h2] at h; simp at h; subst h
      exact mapE_append_of (replaceInHF_ok h1) (replaceInHF_ok h2)

/-- Core refinement: a successful `replaceParagraphInDoc` has exactly the
effect of processing the spec's ordered traversal list paragraph by
paragraph — no visited paragraph is skipped or duplicated. -/
theorem replaceDoc_trav {d d' : Doc} {r c s : Option String}
    (h : replaceParagraphInDoc d r c s = .ok d') :
    mapE (replaceInParagraph d.styles r c s) (travDoc d) = .ok (travDoc d') := by
  unfold replaceParagraphInDoc at h
  cases h1 : mapE (replaceInParagraph d.styles r c s) d.paragraphs with
  | error e => rw [h1] at h; simp at h
  | ok ps =>
    rw [h1] at h
    cases h2 : mapE (replaceInTable (replaceInParagraph d.styles r c s)) d.tables with
    | error e => rw [h2] at h; simp at h
    | ok ts =>
      rw [h2] at h
      cases h3 : mapE (replaceInSection (replaceInParagraph d.styles r c s)) d.sections with
      | error e => rw [h3] at h; simp at h
      | ok ss =>
        rw [h3] at h; simp at h; subst h
        have hts := mapE_flatMap_of (fun t t' ht => replaceInTable_ok ht) h2
        have hss := mapE_flatMap_of (fun s1 s1' hs => replaceInSection_ok hs) h3
        simpa [travDoc] using mapE_append_of (mapE_append_of h1 hts) hss

/-- The fields of the document not holding paragraphs are untouched by a
successful `replaceParagraphInDoc`. -/
theorem replaceDoc_frame {d d' : Doc} {r c s : Option String}
    (h : replaceParagraphInDoc d r c s = .ok d') :
    d'.styles = d.styles ∧ d'.defaultStyle = d.defaultStyle ∧ d'.author = d.author := by
  unfold replaceParagraphInDoc at h
  cases h1 : mapE (replaceInParagraph d.styles r c s) d.paragraphs with
  | error e => rw [h1] at h; simp at h
  | ok ps =>
    rw [h1] at h
    cases h2 : mapE (replaceInTable (replaceInParagraph d.styles r c s)) d.tables with
    | error e => rw [h2] at h; simp at h
    | ok ts =>
      rw [h2] at h
      cases h3 : mapE (replaceInSection (replaceInParagraph d.styles r c s)) d.sections with
      | error e => rw [h3] at h; simp at h
      | ok ss =>
        rw [h3] at h; simp at h; subst h
        exact ⟨rfl, rfl, rfl⟩

/-- The empty string is a substring of every string (Python semantics). -/
theorem pyIn_empty (s : String) : pyIn "" s = true :=
  decide_eq_true ⟨[], s.data, rfl⟩

/-- A paragraph not containing the replace string is returned unaltered. -/
theorem rip_not_matched {D : List String} {r : String} {content st : Option String}
    {p : Para} (h : pyIn r p.text = false) :
    replaceInParagraph D (some r) content st p = .ok p := by
  simp [replaceInParagraph, h]

/-- A matched paragraph whose style cell names a real style (nonempty, not the
literal "None"): the style is reassigned when defined, StyleNotFound raised
otherwise. -/
theorem rip_style_named {D : List String} {r : String} {content : Option String}
    {sname : String} {p : Para} (hm : pyIn r p.text = true) (h1 : sname ≠ "")
    (h2 : sname ≠ "None") :
    replaceInParagraph D (some r) content (some sname) p =
      if sname ∈ D then .ok ⟨pyText content, sname⟩ else .error .styleNotFound := by
  simp [replaceInParagraph, hm, truthyS, h1, h2]

/-- A matched paragraph with an absent, empty or literal "None" style cell:
the text is rewritten and the original style kept. -/
theorem rip_style_skipped {D : List String} {r : String} {content : Option String}
    {p : Para} (hm : pyIn r p.text = true) (st : Option String)
    (hskip : st = none ∨ st = some "None" ∨ st = some "") :
    replaceInParagraph D (some r) content st p = .ok ⟨pyText content, p.style⟩ := by
  rcases hskip with h | h | h <;> subst h <;> simp [replaceInParagraph, hm, truthyS]

/-- Whenever a matched paragraph is processed successfully, its text becomes
exactly the content value. -/
theorem rip_matched_text {D : List String} {r : String} {content st : Option String}
    {p q : Para} (hm : pyIn r p.text = true)
    (h : replaceInParagraph D (some r) content st p = .ok q) : q.text = pyText content := by
  cases st with
  | none =>
    rw [rip_style_skipped hm none (Or.inl rfl)] at h
    injection h with h
    rw [← h]
  | some sname =>
    by_cases h0 : sname = "None"
    · subst h0
      rw [rip_style_skipped hm (some "None") (Or.inr (Or.inl rfl))] at h
      injection h with h
      rw [← h]
    · by_cases h1 : sname = ""
      · subst h1
        rw [rip_style_skipped hm (some "") (Or.inr (Or.inr rfl))] at h
        injection h with h
        rw [← h]
      · rw [rip_style_named hm h1 h0] at h
        by_cases h3 : sname ∈ D
        · rw [if_pos h3] at h
          injection h with h
          rw [← h]
        · rw [if_neg h3] at h
          exact absurd h (by simp)

/-- Sample document used by witnesses: a matching and a non-matching body
paragraph, a matching table-cell paragraph, a matching header paragraph and a
non-matching footer paragraph. -/
def wDoc : Doc :=
  { paragraphs := [⟨"hello x", "Normal"⟩, ⟨"keep", "Body"⟩]
  , tables := [⟨[⟨[⟨[⟨"cell x", "Normal"⟩]⟩]⟩]⟩]
  , sections := [⟨⟨[⟨"head x", "Normal"⟩], []⟩, ⟨[⟨"foot", "Normal"⟩], []⟩⟩]
  , styles := ["Normal", "Heading1"]
  , defaultStyle := "Normal"
  , author := "tmpl" }

/-- The document `wDoc` after replacing every paragraph containing "x" with
"new" (style cell absent, so styles are kept). -/
def wDocOut : Doc :=
  { paragraphs := [⟨"new", "Normal"⟩, ⟨"keep", "Body"⟩]
  , tables := [⟨[⟨[⟨[⟨"new", "Normal"⟩]⟩]⟩]⟩]
  , sections := [⟨⟨[⟨"new", "Normal"⟩], []⟩, ⟨[⟨"foot", "Normal"⟩], []⟩⟩]
  , styles := ["Normal", "Heading1"]
  , defaultStyle := "Normal"
  , author := "tmpl" }

/-- C1: a successful replace pass rewrites the text of every paragraph of the
document (body, body-table cells, section headers/footers and their table
cells) whose current text contains the match string case-sensitively to
exactly the content value (absent content yielding an empty paragraph), and
returns every non-matching paragraph unaltered; every match in the whole
document is rewritten, not only the first. -/
theorem replaceParagraphInDoc_rewrites_every_match (d d' : Doc) (s : String)
    (content style : Option String)
    (h : replaceParagraphInDoc d (some s) content style = .ok d') :
    (travDoc d').length = (travDoc d).length ∧
    ∀ i (hi : i < (travDoc d).length) (hi' : i < (travDoc d').length),
      (pyIn s ((travDoc d).get ⟨i, hi⟩).text = true →
        ((travDoc d').get ⟨i, hi'⟩).text = pyText content) ∧
      (pyIn s ((travDoc d).get ⟨i, hi⟩).text = false →
        (travDoc d').get ⟨i, hi'⟩ = (travDoc d).get ⟨i, hi⟩) := by
  have ht := replaceDoc_trav h
  refine ⟨mapE_ok_length ht, ?_⟩
  intro i hi hi'
  have hp := mapE_ok_get ht i hi hi'
  constructor
  · intro hm
    exact rip_matched_text hm hp
  · intro hm
    rw [rip_not_matched hm] at hp
    injection hp with hp
    exact hp.symm

/-- Witness for C1 on `wDoc`: matched paragraphs (body slot 0, table cell,
header) become "new", non-matching ones (body slot 1, footer) are unaltered. -/
theorem replaceParagraphInDoc_rewrites_every_match_witness :
    replaceParagraphInDoc wDoc (some "x") (some "new") none = .ok wDocOut ∧
    (travDoc wDocOut).length = (travDoc wDoc).length ∧
    ((travDoc wDocOut).get ⟨0, by decide⟩).text = "new" ∧
    ((travDoc wDocOut).get ⟨2, by decide⟩).text = "new" ∧
    (travDoc wDocOut).get ⟨1, by decide⟩ = (travDoc wDoc).get ⟨1, by decide⟩ := by
  have H := replaceParagraphInDoc_rewrites_every_match wDoc wDocOut "x" (some "new") none rfl
  exact ⟨rfl, H.1, (H.2 0 (by decide) (by decide)).1 (by decide),
    (H.2 2 (by decide) (by decide)).1 (by decide),
    (H.2 1 (by decide) (by decide)).2 (by decide)⟩

/-- C3: a successful replace pass visits exactly the spec's ordered traversal
list (body paragraphs; body tables row, cell, paragraph; per section header
paragraphs, header tables, footer paragraphs, footer tables) and its effect
is pointwise processing of that list — no visited paragraph is skipped or
duplicated — while the non-paragraph document fields are untouched. -/
theorem replaceParagraphInDoc_traversal_order (d d' : Doc)
    (replace content style : Option String)
    (h : replaceParagraphInDoc d replace content style = .ok d') :
    mapE (replaceInParagraph d.styles replace content style) (travDoc d) = .ok (travDoc d') ∧
    d'.styles = d.styles ∧ d'.defaultStyle = d.defaultStyle ∧ d'.author = d.author :=
  ⟨replaceDoc_trav h, replaceDoc_frame h⟩

/-- Witness for C3 on `wDoc`. -/
theorem replaceParagraphInDoc_traversal_order_witness :
    mapE (replaceInParagraph wDoc.styles (some "x") (some "new") none) (travDoc wDoc)
      = .ok (travDoc wDocOut) ∧
    wDocOut.styles = wDoc.styles ∧ wDocOut.defaultStyle = wDoc.defaultStyle ∧
    wDocOut.author = wDoc.author :=
  replaceParagraphInDoc_traversal_order wDoc wDocOut (some "x") (some "new") none rfl

/-- One-paragraph document for the C2 counterexample. -/
def cexDoc : Doc := ⟨[⟨"hello", "Normal"⟩], [], [], ["Normal"], "Normal", "a"⟩

/-- `cexDoc` after a replace pass with the empty match string. -/
def cexDocOut : Doc := ⟨[⟨"X", "Normal"⟩], [], [], ["Normal"], "Normal", "a"⟩

/-- C2 counterexample: a replace pass with the EMPTY match string does not
leave the document unchanged — the code has no guard, and empty-string
containment matches the (non-"X") paragraph, rewriting it to "X". -/
theorem emptyMatch_changes_doc :
    replaceParagraphInDoc cexDoc (some "") (some "X") none = .ok cexDocOut ∧
    cexDocOut ≠ cexDoc :=
  ⟨rfl, by decide⟩

/-- C2 amended: with an empty match string every paragraph of the document is
considered a match and rewritten to the content (no guard exists), and with
an absent match string the operation raises TypeError (from `None in text`)
as soon as the body has a paragraph, instead of leaving the document
unchanged. -/
theorem emptyMatch_matches_every_paragraph (d : Doc) (content style : Option String) :
    (∀ d', replaceParagraphInDoc d (some "") content style = .ok d' →
      ∀ p ∈ travDoc d', p.text = pyText content) ∧
    (d.paragraphs ≠ [] → replaceParagraphInDoc d none content style = .error .typeError) := by
  constructor
  · intro d' h p hp
    obtain ⟨q, _, hfq⟩ := mapE_ok_mem (replaceDoc_trav h) p hp
    exact rip_matched_text (pyIn_empty q.text) hfq
  · intro hne
    obtain ⟨x, xs, hx⟩ := List.exists_cons_of_ne_nil hne
    unfold replaceParagraphInDoc
    rw [hx]
    simp [mapE, replaceInParagraph]

/-- Witness for the amended C2 on `cexDoc`. -/
theorem emptyMatch_matches_every_paragraph_witness :
    Para.text ⟨"X", "Normal"⟩ = "X" ∧
    replaceParagraphInDoc cexDoc none (some "X") none = .error .typeError := by
  have H := emptyMatch_matches_every_paragraph cexDoc (some "X") none
  exact ⟨H.1 cexDocOut rfl ⟨"X", "Normal"⟩ (by decide), H.2 (by decide)⟩

/-- C4: on a matched paragraph the style is reassigned exactly when the style
cell is present (truthy) and not the literal "None"; a nonexistent style name
raises StyleNotFound; and a successful whole-document replace pass implies
every visited paragraph was processed successfully, so a per-paragraph
failure is propagated, never silently ignored. -/
theorem replaceInParagraph_style_assignment (D : List String) (r sname : String)
    (content : Option String) (p : Para) (hm : pyIn r p.text = true) :
    (sname ≠ "" → sname ≠ "None" → sname ∈ D →
      replaceInParagraph D (some r) content (some sname) p = .ok ⟨pyText content, sname⟩) ∧
    (sname ≠ "" → sname ≠ "None" → sname ∉ D →
      replaceInParagraph D (some r) content (some sname) p = .error .styleNotFound) ∧
    (∀ st, st = none ∨ st = some "None" ∨ st = some "" →
      replaceInParagraph D (some r) content st p = .ok ⟨pyText content, p.style⟩) ∧
    (∀ (d d' : Doc) (replace content' style' : Option String),
      replaceParagraphInDoc d replace content' style' = .ok d' →
      ∀ q ∈ travDoc d, ∃ q', replaceInParagraph d.styles replace content' style' q = .ok q') := by
  refine ⟨?_, ?_, ?_, ?_⟩
  · intro h1 h2 h3
    rw [rip_style_named hm h1 h2, if_pos h3]
  · intro h1 h2 h3
    rw [rip_style_named hm h1 h2, if_neg h3]
  · intro st hst
    exact rip_style_skipped hm st hst
  · intro d d' replace content' style' h q hq
    exact mapE_ok_src (replaceDoc_trav h) q hq

/-- Witness for C4: style applied when defined, StyleNotFound when not, and
kept under the literal "None". -/
theorem replaceInParagraph_style_assignment_witness :
    pyIn "x" "hello x" = true ∧
    replaceInParagraph ["Normal", "Heading1"] (some "x") (some "new") (some "Heading1")
      ⟨"hello x", "Normal"⟩ = .ok ⟨"new", "Heading1"⟩ ∧
    replaceInParagraph ["Normal"] (some "x") (some "new") (some "Heading1")
      ⟨"hello x", "Normal"⟩ = .error .styleNotFound ∧
    replaceInParagraph ["Normal"] (some "x") (some "new") (some "None")
      ⟨"hello x", "Normal"⟩ = .ok ⟨"new", "Normal"⟩ := by
  have H1 := replaceInParagraph_style_assignment ["Normal", "Heading1"] "x" "Heading1"
    (some "new") ⟨"hello x", "Normal"⟩ (by decide)
  have H2 := replaceInParagraph_style_assignment ["Normal"] "x" "Heading1"
    (some "new") ⟨"hello x", "Normal"⟩ (by decide)
  refine ⟨by decide, ?_, ?_, ?_⟩
  · exact H1.1 (by decide) (by decide) (by decide)
  · exact H2.2.1 (by decide) (by decide) (by decide)
  · exact H2.2.2.1 (some "None") (Or.inr (Or.inl rfl))

/-- python-docx `doc.add_paragraph(text, style=style)`: appends a paragraph at
the end of the body; a `None` style means the template's default paragraph
style, otherwise the named style is looked up and `KeyError` (StyleNotFound)
is raised when the template does not define it.  Note the raw style value is
passed straight through by the source (line 241) — the literal string "None"
is NOT filtered here, unlike in `replaceInParagraph`. -/
def add_paragraph (d : Doc) (text : String) (style : Option String) : Except PyError Doc :=
  match style with
  | none => .ok { d with paragraphs := d.paragraphs ++ [⟨text, d.defaultStyle⟩] }
  | some s =>
    if s ∈ d.styles then .ok { d with paragraphs := d.paragraphs ++ [⟨text, s⟩] }
    else .error .styleNotFound

/-- The add-paragraph arm of the driver (source lines 239-241):
`if content: doc.add_paragraph(content, style=style)` — an absent or empty
content cell makes the row a no-op. -/
def applyAdd (d : Doc) (content style : Option String) : Except PyError Doc :=
  match content with
  | none => .ok d
  | some c => if c = "" then .ok d else add_paragraph d c style

/-- A successful `add_paragraph` appends exactly one paragraph with the given
text (and some style) at the end of the body, leaving everything else as it
was. -/
theorem add_paragraph_ok {d d' : Doc} {c : String} {st : Option String}
    (h : add_paragraph d c st = .ok d') :
    ∃ stl, d' = { d with paragraphs := d.paragraphs ++ [⟨c, stl⟩] } := by
  cases st with
  | none =>
    simp only [add_paragraph] at h
    injection h with h
    exact ⟨d.defaultStyle, h.symm⟩
  | some s =>
    simp only [add_paragraph] at h
    by_cases hs : s ∈ d.styles
    · rw [if_pos hs] at h
      injection h with h
      exact ⟨s, h.symm⟩
    · rw [if_neg hs] at h
      exact absurd h (by simp)

/-- C5: the add-paragraph operation with absent content leaves the document
unchanged (in particular the paragraph count), and with present content a
successful run grows the body by exactly one paragraph — the new last body
paragraph, with text exactly the content — leaving all previous paragraphs,
tables and sections untouched. -/
theorem applyAdd_paragraph_count (d d' : Doc) (c : String) (st : Option String)
    (hc : c ≠ "") (h : applyAdd d (some c) st = .ok d') :
    applyAdd d none st = .ok d ∧
    d'.paragraphs.length = d.paragraphs.length + 1 ∧
    d'.paragraphs.take d.paragraphs.length = d.paragraphs ∧
    (d'.paragraphs.getLast?).map Para.text = some c ∧
    d'.tables = d.tables ∧ d'.sections = d.sections := by
  refine ⟨rfl, ?_⟩
  simp only [applyAdd, if_neg hc] at h
  obtain ⟨stl, rfl⟩ := add_paragraph_ok h
  refine ⟨by simp, ?_, ?_, rfl, rfl⟩
  · exact List.take_left d.paragraphs [⟨c, stl⟩]
  · simp

/-- Witness for C5 on `cexDoc`. -/
theorem applyAdd_paragraph_count_witness :
    ("added" : String) ≠ "" ∧
    applyAdd cexDoc (some "added") none =
      .ok { cexDoc with paragraphs := cexDoc.paragraphs ++ [⟨"added", "Normal"⟩] } ∧
    applyAdd cexDoc none none = .ok cexDoc ∧
    ({ cexDoc with paragraphs := cexDoc.paragraphs ++ [⟨"added", "Normal"⟩] } : Doc).paragraphs.length
      = cexDoc.paragraphs.length + 1 := by
  have H := applyAdd_paragraph_count cexDoc
    { cexDoc with paragraphs := cexDoc.paragraphs ++ [⟨"added", "Normal"⟩] }
    "added" none (by decide) rfl
  exact ⟨by decide, rfl, H.1, H.2.1⟩

/-- Empty template document whose styles do not include a style literally
named "None" (the normal situation). -/
def c6Doc : Doc := ⟨[], [], [], ["Normal", "Heading1"], "Normal", "a"⟩

/-- C6 evaluated on the code: an add-paragraph row whose style cell holds the
literal "None" does NOT fall back to the template's default style — the raw
string "None" is passed to `add_paragraph`, whose style lookup fails with
StyleNotFound.  Only an absent style cell yields the default style.  This
contradicts the claim and the source's own docstring (lines 199-203). -/
theorem applyAdd_style_none_is_error :
    applyAdd c6Doc (some "Signed, Bob") (some "None") = .error .styleNotFound ∧
    applyAdd c6Doc (some "Signed, Bob") none =
      .ok { c6Doc with paragraphs := [⟨"Signed, Bob", "Normal"⟩] } :=
  ⟨rfl, rfl⟩

/-- Index of the last occurrence of a character, counting from `i` for the
head of the list (helper for Python's `str.rfind`). -/
def lastIdxAux (c : Char) : List Char → Nat → Option Nat
  | [], _ => none
  | x :: xs, i =>
    match lastIdxAux c xs (i + 1) with
    | some j => some j
    | none => if x = c then some i else none

/-- Python's `p.rfind(c)`: index of the last occurrence of `c` in `p`, with
`none` standing for the -1 "not found" result. -/
def lastIdx (c : Char) (l : List Char) : Option Nat := lastIdxAux c l 0

/-- Embedding of posixpath `os.path.splitext`: split at the last dot that
comes after the last path separator, except that a basename consisting only
of leading dots up to that position has no extension. -/
def splitext (p : List Char) : List Char × List Char :=
  match lastIdx '.' p with
  | none => (p, [])
  | some di =>
    match lastIdx '/' p with
    | none =>
      if (p.take di).all (· == '.') then (p, []) else (p.take di, p.drop di)
    | some si =>
      if di ≤ si then (p, [])
      else if ((p.take di).drop (si + 1)).all (· == '.') then (p, [])
      else (p.take di, p.drop di)

/-- `splitext` cuts the filename into two pieces whose concatenation is the
original: base name and extension are both preserved. -/
theorem splitext_append (p : List Char) : (splitext p).1 ++ (splitext p).2 = p := by
  unfold splitext
  cases h1 : lastIdx '.' p with
  | none => simp
  | some di =>
    cases h2 : lastIdx '/' p with
    | none =>
      by_cases h : (p.take di).all (· == '.') <;> simp [h, List.take_append_drop]
    | some si =>
      by_cases h3 : di ≤ si
      · simp [h3]
      · by_cases h4 : ((p.take di).drop (si + 1)).all (· == '.') <;>
          simp [h3, h4, List.take_append_drop]

/-- Embedding of posixpath `os.path.dirname`: everything before the last
separator, with trailing separators stripped unless the head is all
separators; a path without separator has the empty dirname. -/
def dirname (p : String) : String :=
  match lastIdx '/' p.data with
  | none => ""
  | some i =>
    if (p.data.take (i + 1)).all (· == '/') then String.mk (p.data.take (i + 1))
    else String.mk (((p.data.take (i + 1)).reverse.dropWhile (· == '/')).reverse)

/-- Model of `os.makedirs(path, exist_ok=True)` over an idealized writable
filesystem: it fails (FileNotFoundError) exactly on the empty path, which
can be neither found nor created. -/
def makedirs (path : String) : Except PyError Unit :=
  if path = "" then .error .fileNotFound else .ok ()

/-- Embedding of `ensureDirectoryExists(filename)` (source lines 45-47). -/
def ensureDirectoryExists (filename : String) : Except PyError Unit :=
  makedirs (dirname filename)

/-- A broken-down local time, as fed to `time.strftime`. -/
structure Tm where
  year : Nat
  month : Nat
  day : Nat
  hour : Nat
  minute : Nat
  second : Nat
deriving DecidableEq

/-- Zero-padded two-digit rendering, as `strftime` prints `%m`, `%d`, `%H`,
`%M`, `%S` for their in-range values. -/
def pad2 (n : Nat) : List Char := [Nat.digitChar (n / 10 % 10), Nat.digitChar (n % 10)]

/-- Zero-padded four-digit rendering, as `strftime` prints `%Y` for years
below 10000. -/
def pad4 (n : Nat) : List Char :=
  [Nat.digitChar (n / 1000 % 10), Nat.digitChar (n / 100 % 10),
   Nat.digitChar (n / 10 % 10), Nat.digitChar (n % 10)]

/-- Embedding of `getCurrentTimeAsString()` (source lines 30-33):
`time.strftime("%Y-%m-%d_%H%M%S")` applied to the given local time. -/
def getCurrentTimeAsString (t : Tm) : String :=
  String.mk (pad4 t.year ++ ['-'] ++ pad2 t.month ++ ['-'] ++ pad2 t.day ++ ['_'] ++
    pad2 t.hour ++ pad2 t.minute ++ pad2 t.second)

/-- Field bounds under which the strftime rendering is faithful and
injective; every real local time satisfies them. -/
def Tm.Bounded (t : Tm) : Prop :=
  t.year < 10000 ∧ t.month < 100 ∧ t.day < 100 ∧ t.hour < 100 ∧
    t.minute < 100 ∧ t.second < 100

/-- Embedding of `appendTimestampToFilename(filename)` (source lines 36-42),
with the `strftime` result injected as `stamp`: insert `_` and the timestamp
between the `splitext` base name and extension. -/
def appendTimestampToFilename (stamp filename : String) : String :=
  String.mk ((splitext filename.data).1 ++
    '_' :: (stamp.data ++ (splitext filename.data).2))

/-- Embedding of `appendTimestampToFilenames(filenames)` (source lines
50-61): per filename, build the timestamped name and ensure its parent
directory exists, propagating the first failure. -/
def appendTimestampToFilenames (stamp : String) : List String → Except PyError (List String)
  | [] => .ok []
  | f :: fs =>
    match ensureDirectoryExists f with
    | .error e => .error e
    | .ok _ =>
      match appendTimestampToFilenames stamp fs with
      | .error e => .error e
      | .ok rest => .ok (appendTimestampToFilename stamp f :: rest)

/-- `Nat.digitChar` is injective on single digits. -/
theorem digitChar_inj_fin : ∀ a b : Fin 10, Nat.digitChar a.val = Nat.digitChar b.val → a = b := by
  decide

/-- `Nat.digitChar` is injective below 10. -/
theorem digitChar_inj {a b : Nat} (ha : a < 10) (hb : b < 10)
    (h : Nat.digitChar a = Nat.digitChar b) : a = b :=
  congrArg Fin.val (digitChar_inj_fin ⟨a, ha⟩ ⟨b, hb⟩ h)

/-- The strftime rendering always has 17 characters. -/
theorem stamp_length (t : Tm) : (getCurrentTimeAsString t).data.length = 17 := by
  simp [getCurrentTimeAsString, pad4, pad2]

/-- Two broken-down times with equal fields are equal. -/
theorem Tm.fieldsEq {t t' : Tm} (h1 : t.year = t'.year) (h2 : t.month = t'.month)
    (h3 : t.day = t'.day) (h4 : t.hour = t'.hour) (h5 : t.minute = t'.minute)
    (h6 : t.second = t'.second) : t = t' := by
  cases t
  cases t'
  simp_all

/-- The timestamp format is injective on bounded times: different times give
different `YYYY-MM-DD_HHMMSS` strings. -/
theorem stamp_inj {t t' : Tm} (ht : t.Bounded) (ht' : t'.Bounded)
    (h : getCurrentTimeAsString t = getCurrentTimeAsString t') : t = t' := by
  obtain ⟨hy, hmo, hd, hh, hmi, hs⟩ := ht
  obtain ⟨hy', hmo', hd', hh', hmi', hs'⟩ := ht'
  have hten : (0 : Nat) < 10 := by norm_num
  have h0 : pad4 t.year ++ ['-'] ++ pad2 t.month ++ ['-'] ++ pad2 t.day ++ ['_'] ++
      pad2 t.hour ++ pad2 t.minute ++ pad2 t.second =
      pad4 t'.year ++ ['-'] ++ pad2 t'.month ++ ['-'] ++ pad2 t'.day ++ ['_'] ++
      pad2 t'.hour ++ pad2 t'.minute ++ pad2 t'.second := congrArg String.data h
  simp only [pad4, pad2, List.cons_append, List.nil_append, List.cons.injEq,
    and_true] at h0
  obtain ⟨e1, e2, e3, e4, _, e5, e6, _, e7, e8, _, e9, e10, e11, e12, e13, e14⟩ := h0
  have d1 := digitChar_inj (Nat.mod_lt _ hten) (Nat.mod_lt _ hten) e1
  have d2 := digitChar_inj (Nat.mod_lt _ hten) (Nat.mod_lt _ hten) e2
  have d3 := digitChar_inj (Nat.mod_lt _ hten) (Nat.mod_lt _ hten) e3
  have d4 := digitChar_inj (Nat.mod_lt _ hten) (Nat.mod_lt _ hten) e4
  have d5 := digitChar_inj (Nat.mod_lt _ hten) (Nat.mod_lt _ hten) e5
  have d6 := digitChar_inj (Nat.mod_lt _ hten) (Nat.mod_lt _ hten) e6
  have d7 := digitChar_inj (Nat.mod_lt _ hten) (Nat.mod_lt _ hten) e7
  have d8 := digitChar_inj (Nat.mod_lt _ hten) (Nat.mod_lt _ hten) e8
  have d9 := digitChar_inj (Nat.mod_lt _ hten) (Nat.mod_lt _ hten) e9
  have d10 := digitChar_inj (Nat.mod_lt _ hten) (Nat.mod_lt _ hten) e10
  have d11 := digitChar_inj (Nat.mod_lt _ hten) (Nat.mod_lt _ hten) e11
  have d12 := digitChar_inj (Nat.mod_lt _ hten) (Nat.mod_lt _ hten) e12
  have d13 := digitChar_inj (Nat.mod_lt _ hten) (Nat.mod_lt _ hten) e13
  have d14 := digitChar_inj (Nat.mod_lt _ hten) (Nat.mod_lt _ hten) e14
  apply Tm.fieldsEq <;> omega

/-- Different bounded times give different timestamped filenames for the
same base filename. -/
theorem appendTimestamp_inj_time {t t' : Tm} (ht : t.Bounded) (ht' : t'.Bounded)
    (f : String) (hne : t ≠ t') :
    appendTimestampToFilename (getCurrentTimeAsString t) f ≠
      appendTimestampToFilename (getCurrentTimeAsString t') f := by
  intro h
  apply hne
  apply stamp_inj ht ht'
  unfold appendTimestampToFilename at h
  injection h with h
  have h2 := (List.append_inj h rfl).2
  injection h2 with _ h3
  have h4 := (List.append_inj h3 (by rw [stamp_length, stamp_length])).1
  exact String.ext h4

/-- C9: the timestamped output filename is the `splitext` base name, an
underscore, the `YYYY-MM-DD_HHMMSS` rendering of the current local time, and
the original extension; base name and extension reassemble to the original
filename, so both are preserved; and two runs at different (bounded) times
produce different filenames. -/
theorem timestamped_filename_properties (t t' : Tm) (f : String)
    (ht : t.Bounded) (ht' : t'.Bounded) (hne : t ≠ t') :
    appendTimestampToFilename (getCurrentTimeAsString t) f =
      String.mk ((splitext f.data).1 ++
        '_' :: ((getCurrentTimeAsString t).data ++ (splitext f.data).2)) ∧
    (splitext f.data).1 ++ (splitext f.data).2 = f.data ∧
    appendTimestampToFilename (getCurrentTimeAsString t) f ≠
      appendTimestampToFilename (getCurrentTimeAsString t') f :=
  ⟨rfl, splitext_append f.data, appendTimestamp_inj_time ht ht' f hne⟩

/-- Witness for C9: the docstring's own example time and a one-second-later
time, on a filename with directory, extension and an inner underscore. -/
theorem timestamped_filename_properties_witness :
    (Tm.mk 2020 8 19 15 12 21).Bounded ∧ (Tm.mk 2020 8 19 15 12 22).Bounded ∧
    Tm.mk 2020 8 19 15 12 21 ≠ Tm.mk 2020 8 19 15 12 22 ∧
    getCurrentTimeAsString (Tm.mk 2020 8 19 15 12 21) = "2020-08-19_151221" ∧
    appendTimestampToFilename "2020-08-19_151221" "gen/out.docx"
      = "gen/out_2020-08-19_151221.docx" ∧
    appendTimestampToFilename (getCurrentTimeAsString (Tm.mk 2020 8 19 15 12 21)) "gen/out.docx"
      ≠ appendTimestampToFilename (getCurrentTimeAsString (Tm.mk 2020 8 19 15 12 22)) "gen/out.docx" := by
  refine ⟨by unfold Tm.Bounded; decide, by unfold Tm.Bounded; decide, by decide, by decide,
    by decide, ?_⟩
  exact (timestamped_filename_properties (Tm.mk 2020 8 19 15 12 21) (Tm.mk 2020 8 19 15 12 22)
    "gen/out.docx" (by unfold Tm.Bounded; decide) (by unfold Tm.Bounded; decide) (by decide)).2.2

/-- A filename in the list whose dirname is empty makes the batch
`appendTimestampToFilenames` fail with FileNotFoundError. -/
theorem appendTimestampToFilenames_error {stamp : String} :
    ∀ {fs : List String} {f : String}, f ∈ fs → dirname f = "" →
      appendTimestampToFilenames stamp fs = .error .fileNotFound := by
  intro fs
  induction fs with
  | nil =>
    intro f hf _
    simp at hf
  | cons g gs ih =>
    intro f hf hd
    rcases List.mem_cons.mp hf with hEq | hMem
    · subst hEq
      simp [appendTimestampToFilenames, ensureDirectoryExists, makedirs, hd]
    · by_cases hg : dirname g = ""
      · simp [appendTimestampToFilenames, ensureDirectoryExists, makedirs, hg]
      · simp [appendTimestampToFilenames, ensureDirectoryExists, makedirs, hg, ih hMem hd]

/-- A successful batch timestamping returns exactly the per-filename
timestamped names, in order. -/
theorem appendTimestampToFilenames_ok {stamp : String} :
    ∀ {fs ts : List String}, appendTimestampToFilenames stamp fs = .ok ts →
      ts = fs.map (appendTimestampToFilename stamp) := by
  intro fs
  induction fs with
  | nil =>
    intro ts h
    simp [appendTimestampToFilenames] at h
    subst h
    simp
  | cons g gs ih =>
    intro ts h
    cases he : ensureDirectoryExists g with
    | error e => simp [appendTimestampToFilenames, he] at h
    | ok u =>
      cases hr : appendTimestampToFilenames stamp gs with
      | error e => simp [appendTimestampToFilenames, he, hr] at h
      | ok rest =>
        simp [appendTimestampToFilenames, he, hr] at h
        subst h
        simp [ih hr]

/-- The spreadsheet as the driver reads it: a maximum row index and a cell
accessor with 1-based row and column indices, values already resolved
(`none` = empty cell). -/
structure Sheet where
  maxRow : Nat
  cell : Nat → Nat → Option String

/-- Diagnostics the row dispatcher prints: the "Unexpected object" report
for a command cell containing neither recognized command token. -/
inductive Diag where
  | unexpected (command : String) (content : Option String)
deriving DecidableEq

/-- One iteration of the driver's row loop (source lines 229-243): read the
four cells; skip the row when the command cell is falsy; dispatch on which
command token the command text contains (replace checked first); report any
other command as a diagnostic and ignore it. -/
def processRow (sheet : Sheet) (commandColumn styleColumn replaceColumn contentColumn : Nat)
    (d : Doc) (row : Nat) : Except PyError (Doc × List Diag) :=
  match sheet.cell row commandColumn with
  | none => .ok (d, [])
  | some cmd =>
    if cmd = "" then .ok (d, [])
    else if pyIn "replace_paragraph" cmd then
      match replaceParagraphInDoc d (sheet.cell row replaceColumn)
          (sheet.cell row contentColumn) (sheet.cell row styleColumn) with
      | .error e => .error e
      | .ok d' => .ok (d', [])
    else if pyIn "add_paragraph" cmd then
      match applyAdd d (sheet.cell row contentColumn) (sheet.cell row styleColumn) with
      | .error e => .error e
      | .ok d' => .ok (d', [])
    else .ok (d, [.unexpected cmd (sheet.cell row contentColumn)])

/-- The driver's row loop over a list of row indices, threading the document
and collecting diagnostics, stopping at the first raised error. -/
def runRows (sheet : Sheet) (commandColumn styleColumn replaceColumn contentColumn : Nat) :
    Doc → List Nat → Except PyError (Doc × List Diag)
  | d, [] => .ok (d, [])
  | d, r :: rs =>
    match processRow sheet commandColumn styleColumn replaceColumn contentColumn d r with
    | .error e => .error e
    | .ok (d', ds) =>
      match runRows sheet commandColumn styleColumn replaceColumn contentColumn d' rs with
      | .error e => .error e
      | .ok (d'', ds') => .ok (d'', ds ++ ds')

/-- The row indices the driver iterates:
`range(contentStartRow, sheet.max_row + 1)` (source line 228). -/
def rowIndices (contentStartRow maxRow : Nat) : List Nat :=
  List.range' contentStartRow (maxRow + 1 - contentStartRow)

/-- Generation of one output file (the body of the driver's outer loop,
source lines 219-248): a fresh copy of the template with the author set,
then every content row applied in row order; the saved document is paired
with its already-timestamped filename. -/
def generateOne (sheet : Sheet) (contentStartRow commandColumn styleColumn replaceColumn : Nat)
    (template : Doc) (username : String) (pr : String × Nat) :
    Except PyError (String × Doc) :=
  match runRows sheet commandColumn styleColumn replaceColumn pr.2
      { template with author := username } (rowIndices contentStartRow sheet.maxRow) with
  | .error e => .error e
  | .ok (d, _) => .ok (pr.1, d)

/-- Embedding of `generateDocxFromXlsx(...)` (source lines 186-248): first
the batch timestamping and directory creation of all configured filenames,
then one generation pass per `zip(timestampedNames, contentColumns)` pair.
The template is passed as an already-loaded document; each pass starts from
its own copy (`{ template with ... }`), which in this pure embedding is
automatically independent.  The clock is injected as a single `stamp`,
treated as constant within one run. -/
def generateDocxFromXlsx (sheet : Sheet)
    (contentStartRow commandColumn styleColumn replaceColumn : Nat) (contentColumns : List Nat)
    (template : Doc) (outputFilenames : List String) (username stamp : String) :
    Except PyError (List (String × Doc)) :=
  match appendTimestampToFilenames stamp outputFilenames with
  | .error e => .error e
  | .ok names =>
    mapE (generateOne sheet contentStartRow commandColumn styleColumn replaceColumn
      template username) (names.zip contentColumns)

/-- C7: the driver iterates exactly the rows from `contentStartRow` to the
sheet's last row inclusive, in increasing row order (`rowIndices`, which
`generateOne` passes to the row loop); a row whose command cell is absent or
empty is skipped with the document unchanged and no diagnostic; a row whose
command contains neither recognized token leaves the document unchanged,
emits the "Unexpected object" diagnostic, and is not fatal. -/
theorem driver_row_dispatch (sheet : Sheet) (cc sc rc col : Nat) (d : Doc) (r s m : Nat) :
    (r ∈ rowIndices s m ↔ s ≤ r ∧ r ≤ m) ∧
    List.Pairwise (· < ·) (rowIndices s m) ∧
    (sheet.cell r cc = none → processRow sheet cc sc rc col d r = .ok (d, [])) ∧
    (sheet.cell r cc = some "" → processRow sheet cc sc rc col d r = .ok (d, [])) ∧
    (∀ cmd, sheet.cell r cc = some cmd → cmd ≠ "" →
      pyIn "replace_paragraph" cmd = false → pyIn "add_paragraph" cmd = false →
      processRow sheet cc sc rc col d r = .ok (d, [.unexpected cmd (sheet.cell r col)])) := by
  refine ⟨?_, ?_, ?_, ?_, ?_⟩
  · rw [rowIndices, List.mem_range'_1]
    omega
  · exact List.pairwise_lt_range' s (m + 1 - s)
  · intro h
    simp [processRow, h]
  · intro h
    simp [processRow, h]
  · intro cmd hcmd hne h1 h2
    simp [processRow, hcmd, hne, h1, h2]

/-- Sheet for the C7 witness: only the command cell of row 2 is filled, with
an unrecognized command. -/
def wSheet : Sheet :=
  { maxRow := 3
  , cell := fun r c => if r = 2 ∧ c = 1 then some "nonsense" else none }

/-- Witness for C7: the unknown-command row reports a diagnostic and changes
nothing; the empty-command row is skipped silently; the iterated row range
is 2..3. -/
theorem driver_row_dispatch_witness :
    processRow wSheet 1 2 3 4 c6Doc 2 = .ok (c6Doc, [.unexpected "nonsense" none]) ∧
    processRow wSheet 1 2 3 4 c6Doc 3 = .ok (c6Doc, []) ∧
    2 ∈ rowIndices 2 3 ∧ 4 ∉ rowIndices 2 3 := by
  refine ⟨?_, ?_, ?_, ?_⟩
  · exact (driver_row_dispatch wSheet 1 2 3 4 c6Doc 2 2 3).2.2.2.2 "nonsense" (by decide)
      (by decide) (by decide) (by decide)
  · exact (driver_row_dispatch wSheet 1 2 3 4 c6Doc 3 2 3).2.2.1 (by decide)
  · exact (driver_row_dispatch wSheet 1 2 3 4 c6Doc 2 2 3).1.mpr (by decide)
  · intro hmem
    have := (driver_row_dispatch wSheet 1 2 3 4 c6Doc 4 2 3).1.mp hmem
    omega

/-- C8: when the configured output filename list and content column list
differ in length, a successful generation run produces exactly
`min` of the two lengths output files, pairing the lists position by
position (the i-th output comes from the i-th filename, timestamped, and the
i-th content column); surplus entries of the longer list are silently
dropped. -/
theorem driver_zip_truncation (sheet : Sheet) (startRow cc sc rc : Nat) (cols : List Nat)
    (template : Doc) (fs : List String) (user stamp : String) (outs : List (String × Doc))
    (h : generateDocxFromXlsx sheet startRow cc sc rc cols template fs user stamp = .ok outs) :
    outs.length = min fs.length cols.length ∧
    ∀ i (hi : i < outs.length) (hf : i < fs.length) (hc : i < cols.length),
      generateOne sheet startRow cc sc rc template user
        (appendTimestampToFilename stamp (fs.get ⟨i, hf⟩), cols.get ⟨i, hc⟩)
        = .ok (outs.get ⟨i, hi⟩) := by
  unfold generateDocxFromXlsx at h
  cases hn : appendTimestampToFilenames stamp fs with
  | error e =>
    rw [hn] at h
    simp at h
  | ok names =>
    rw [hn] at h
    have hmap := appendTimestampToFilenames_ok hn
    subst hmap
    constructor
    · rw [mapE_ok_length h, List.length_zip, List.length_map]
    · intro i hi hf hc
      have hizip : i < ((fs.map (appendTimestampToFilename stamp)).zip cols).length := by
        rw [List.length_zip, List.length_map]
        omega
      have hp := mapE_ok_get h i hizip hi
      simp only [List.get_eq_getElem, List.getElem_zip, List.getElem_map] at hp
      simpa using hp

/-- Sheet for the C8/C10 witnesses: no rows to process once the start row is
past `maxRow`. -/
def wSheet8 : Sheet := { maxRow := 0, cell := fun _ _ => none }

/-- Witness for C8: two filenames, three content columns — exactly
`min 2 3 = 2` outputs, paired positionally; the surplus column is dropped. -/
theorem driver_zip_truncation_witness :
    generateDocxFromXlsx wSheet8 2 1 2 3 [4, 5, 6] c6Doc ["g/a.docx", "g/b.docx"] "usr" "TS"
      = .ok [("g/a_TS.docx", { c6Doc with author := "usr" }),
             ("g/b_TS.docx", { c6Doc with author := "usr" })] ∧
    ([("g/a_TS.docx", { c6Doc with author := "usr" }),
      ("g/b_TS.docx", { c6Doc with author := "usr" })] : List (String × Doc)).length
      = min (["g/a.docx", "g/b.docx"] : List String).length ([4, 5, 6] : List Nat).length := by
  refine ⟨rfl, ?_⟩
  exact (driver_zip_truncation wSheet8 2 1 2 3 [4, 5, 6] c6Doc ["g/a.docx", "g/b.docx"]
    "usr" "TS" _ rfl).1

/-- C10: an output filename with no parent directory component (empty
dirname, e.g. a bare "out.docx") makes the batch timestamping step call
`os.makedirs("")`, which fails, so the whole generation run aborts with
FileNotFoundError before any document is produced. -/
theorem bare_filename_aborts_generation (stamp : String) (fs : List String) (f : String)
    (hf : f ∈ fs) (hd : dirname f = "") :
    appendTimestampToFilenames stamp fs = .error .fileNotFound ∧
    ∀ (sheet : Sheet) (startRow cc sc rc : Nat) (cols : List Nat) (template : Doc)
      (user : String),
      generateDocxFromXlsx sheet startRow cc sc rc cols template fs user stamp
        = .error .fileNotFound := by
  have he := @appendTimestampToFilenames_error stamp fs f hf hd
  refine ⟨he, ?_⟩
  intro sheet startRow cc sc rc cols template user
  unfold generateDocxFromXlsx
  rw [he]

/-- Witness for C10 on the bare filename "out.docx". -/
theorem bare_filename_aborts_generation_witness :
    ("out.docx" : String) ∈ (["out.docx"] : List String) ∧
    dirname "out.docx" = "" ∧
    appendTimestampToFilenames "TS" ["out.docx"] = .error .fileNotFound ∧
    generateDocxFromXlsx wSheet8 2 1 2 3 [4] c6Doc ["out.docx"] "usr" "TS"
      = .error .fileNotFound := by
  have H := bare_filename_aborts_generation "TS" ["out.docx"] "out.docx" (by decide) (by decide)
  exact ⟨by decide, by decide, H.1, H.2 wSheet8 2 1 2 3 [4] c6Doc "usr"⟩

end Xlsx2Docx
